import Mathlib

/-!
Verification of the message-dict building, caching and lazy-render pipeline
of `zerver/lib/message.py`.

The embedding models:
  * JSON values (`JVal`) as handled by the `ujson` serializer, with numbers
    restricted to integers;
  * the payload codec (`stringify_message_dict` / `extract_message_dict`),
    with the compression layer abstracted as a lossless pair;
  * the message dict builder (`build_message_dict`) with its two call-site
    adapters (`to_dict_uncached_helper`, `build_dict_from_raw_db_row`), the
    record store, and an explicit trace of render/persist/fetch effects.

External collaborators that live in modules of the repository outside the
excerpt (`zerver.models`, `zerver.lib.avatar`, `zerver.lib.bugdown`,
`zerver.lib.str_utils`, `zerver.lib.timestamp`) are modelled from the spec,
as marked in their doc comments.
-/

/-- JSON values as produced and consumed by the `ujson` serializer.  Numbers
are modelled as integers (floating point is outside the embedding). -/
inductive JVal where
  | null : JVal
  | bool : Bool → JVal
  | num : Int → JVal
  | str : String → JVal
  | arr : List JVal → JVal
  | obj : List (String × JVal) → JVal

/-- A Python dict with string keys, in insertion order. -/
abbrev Dict := List (String × JVal)

/-- Lookup of a key in a dict (first matching entry). -/
def dictGet (d : Dict) (key : String) : Option JVal :=
  (d.find? (fun p => p.1 == key)).map (fun p => p.2)

mutual

/-- Node count of a JSON value; used as a fuel bound for the parser. -/
def jsize : JVal → Nat
  | .null => 1
  | .bool _ => 1
  | .num _ => 1
  | .str _ => 1
  | .arr l => 1 + jsizeL l
  | .obj l => 1 + jsizeM l

/-- Node count of a list of JSON values. -/
def jsizeL : List JVal → Nat
  | [] => 0
  | v :: vs => jsize v + jsizeL vs

/-- Node count of the values of a key-value list. -/
def jsizeM : List (String × JVal) → Nat
  | [] => 0
  | kv :: kvs => jsize kv.2 + jsizeM kvs

end

theorem jsize_pos (v : JVal) : 1 ≤ jsize v := by
  cases v <;> simp [jsize]

/-- The character of a decimal digit. -/
def digitChar (d : Nat) : Char := Char.ofNat (48 + d)

/-- Decimal digits of a natural number, most significant first. -/
def natChars (n : Nat) : List Char :=
  if n = 0 then ['0'] else (Nat.digits 10 n).reverse.map digitChar

/-- Decimal representation of an integer, as serialized by ujson. -/
def intChars : Int → List Char
  | .ofNat n => natChars n
  | .negSucc m => '-' :: natChars (m + 1)

/-- Recognizer for decimal digit characters. -/
def isDigit (c : Char) : Bool := 48 ≤ c.toNat && c.toNat ≤ 57

/-- Numeric value of a digit character. -/
def digitVal (c : Char) : Nat := c.toNat - 48

/-- True when the input does not begin with a digit, so that a preceding
number token cannot be extended by it. -/
def delimOk : List Char → Bool
  | [] => true
  | c :: _ => !(isDigit c)

/-- Consume a run of digit characters, folding them onto an accumulator. -/
def parseDigits : List Char → Nat → Nat × List Char
  | [], acc => (acc, [])
  | c :: cs, acc => if isDigit c then parseDigits cs (acc * 10 + digitVal c) else (acc, c :: cs)

/-- Parse a JSON integer: an optional minus sign followed by digits. -/
def parseNum (cs : List Char) : Option (Int × List Char) :=
  match cs with
  | [] => none
  | c :: rest =>
    if c = '-' then
      match rest with
      | [] => none
      | c2 :: _ =>
        if isDigit c2 then
          let p := parseDigits rest 0
          some (-(p.1 : Int), p.2)
        else none
    else if isDigit c then
      let p := parseDigits cs 0
      some ((p.1 : Int), p.2)
    else none

theorem digitChar_toNat (d : Nat) (h : d < 10) : (digitChar d).toNat = 48 + d := by
  interval_cases d <;> decide

theorem isDigit_digitChar (d : Nat) (h : d < 10) : isDigit (digitChar d) = true := by
  interval_cases d <;> decide

theorem digitVal_digitChar (d : Nat) (h : d < 10) : digitVal (digitChar d) = d := by
  interval_cases d <;> decide

theorem isDigit_ne_minus (c : Char) (h : isDigit c = true) : ¬(c = '-') := by
  intro hc
  subst hc
  simp [isDigit] at h

theorem parseDigits_delim (rest : List Char) (acc : Nat) (h : delimOk rest = true) :
    parseDigits rest acc = (acc, rest) := by
  cases rest with
  | nil => rfl
  | cons c cs =>
    simp only [delimOk, Bool.not_eq_true'] at h
    simp [parseDigits, h]

theorem parseDigits_append (es : List Nat) (h : ∀ d ∈ es, d < 10) (acc : Nat)
    (rest : List Char) (hrest : delimOk rest = true) :
    parseDigits (es.map digitChar ++ rest) acc =
      (es.foldl (fun a d => a * 10 + d) acc, rest) := by
  induction es generalizing acc with
  | nil => simpa using parseDigits_delim rest acc hrest
  | cons d es ih =>
    have hd : d < 10 := h d (List.mem_cons_self d es)
    have hes : ∀ x ∈ es, x < 10 := fun x hx => h x (List.mem_cons_of_mem d hx)
    simp only [List.map_cons, List.cons_append, parseDigits,
      isDigit_digitChar d hd, if_pos, digitVal_digitChar d hd, List.foldl_cons]
    exact ih hes (acc * 10 + d)

theorem foldl_base10 (es : List Nat) (acc : Nat) :
    es.foldl (fun a d => a * 10 + d) acc =
      acc * 10 ^ es.length + Nat.ofDigits 10 es.reverse := by
  induction es generalizing acc with
  | nil => simp [Nat.ofDigits_nil]
  | cons d es ih =>
    simp only [List.foldl_cons, List.reverse_cons, List.length_cons]
    rw [ih, Nat.ofDigits_append, Nat.ofDigits_singleton]
    simp [List.length_reverse]
    ring

theorem parseDigits_natChars (n : Nat) (rest : List Char) (h : delimOk rest = true) :
    parseDigits (natChars n ++ rest) 0 = (n, rest) := by
  by_cases hn : n = 0
  · subst hn
    have h0 : natChars 0 = [0].map digitChar := by simp [natChars, digitChar]
    rw [h0, parseDigits_append [0] (by simp) 0 rest h]
    simp
  · have hd : ∀ d ∈ (Nat.digits 10 n).reverse, d < 10 := by
      intro d hdm
      exact Nat.digits_lt_base (by norm_num) (List.mem_reverse.mp hdm)
    rw [natChars, if_neg hn, parseDigits_append _ hd 0 rest h, foldl_base10]
    simp [Nat.ofDigits_digits]

theorem natChars_cons (n : Nat) :
    ∃ c t, natChars n = c :: t ∧ isDigit c = true := by
  by_cases hn : n = 0
  · subst hn
    exact ⟨'0', [], rfl, by decide⟩
  · have hne : Nat.digits 10 n ≠ [] := Nat.digits_ne_nil_iff_ne_zero.mpr hn
    have hne2 : (Nat.digits 10 n).reverse ≠ [] := by simpa using hne
    obtain ⟨d, t, ht⟩ := List.exists_cons_of_ne_nil hne2
    refine ⟨digitChar d, t.map digitChar, ?_, ?_⟩
    · simp [natChars, hn, ht]
    · have : d ∈ (Nat.digits 10 n).reverse := by simp [ht]
      exact isDigit_digitChar d (Nat.digits_lt_base (by norm_num) (List.mem_reverse.mp this))

theorem parseNum_intChars (i : Int) (rest : List Char) (h : delimOk rest = true) :
    parseNum (intChars i ++ rest) = some (i, rest) := by
  cases i with
  | ofNat n =>
    obtain ⟨c, t, hct, hdig⟩ := natChars_cons n
    have hpd := parseDigits_natChars n rest h
    rw [hct] at hpd
    simp only [List.cons_append] at hpd
    simp only [intChars, hct, List.cons_append, parseNum,
      if_neg (isDigit_ne_minus c hdig), hdig, if_pos]
    simp [hpd]
  | negSucc m =>
    obtain ⟨c, t, hct, hdig⟩ := natChars_cons (m + 1)
    have hpd := parseDigits_natChars (m + 1) rest h
    rw [hct] at hpd
    simp only [List.cons_append] at hpd
    simp only [intChars, hct, List.cons_append, parseNum, if_pos, hdig]
    rw [hpd]
    simp [Int.negSucc_eq]

/-- Hexadecimal digit character, lowercase letters for values above nine. -/
def hexChar (n : Nat) : Char := if n < 10 then Char.ofNat (48 + n) else Char.ofNat (87 + n)

/-- Value of a hexadecimal digit character; other characters map to zero. -/
def hexVal (c : Char) : Nat :=
  if 48 ≤ c.toNat ∧ c.toNat ≤ 57 then c.toNat - 48
  else if 97 ≤ c.toNat ∧ c.toNat ≤ 102 then c.toNat - 87
  else if 65 ≤ c.toNat ∧ c.toNat ≤ 70 then c.toNat - 55
  else 0

/-- Escape one character for a JSON string literal: quote and backslash get a
backslash escape, control characters a four-digit unicode escape. -/
def escChars (c : Char) : List Char :=
  if c = '\"' then ['\\', '\"']
  else if c = '\\' then ['\\', '\\']
  else if c.toNat < 32 then ['\\', 'u', '0', '0', hexChar (c.toNat / 16), hexChar (c.toNat % 16)]
  else [c]

/-- Escape a character sequence for a JSON string literal. -/
def escape (s : List Char) : List Char := s.foldr (fun c r => escChars c ++ r) []

/-- Parse the body of a JSON string literal, after the opening quote; returns
the unescaped characters and the input following the closing quote. -/
def parseStr : List Char → Option (List Char × List Char)
  | [] => none
  | c :: rest =>
    if c = '\"' then some ([], rest)
    else if c = '\\' then
      match rest with
      | [] => none
      | e :: r =>
        if e = '\"' then (parseStr r).map (fun p => ('\"' :: p.1, p.2))
        else if e = '\\' then (parseStr r).map (fun p => ('\\' :: p.1, p.2))
        else if e = '/' then (parseStr r).map (fun p => ('/' :: p.1, p.2))
        else if e = 'n' then (parseStr r).map (fun p => ('\n' :: p.1, p.2))
        else if e = 't' then (parseStr r).map (fun p => ('\t' :: p.1, p.2))
        else if e = 'r' then (parseStr r).map (fun p => ('\r' :: p.1, p.2))
        else if e = 'b' then (parseStr r).map (fun p => (Char.ofNat 8 :: p.1, p.2))
        else if e = 'f' then (parseStr r).map (fun p => (Char.ofNat 12 :: p.1, p.2))
        else if e = 'u' then
          match r with
          | h1 :: h2 :: h3 :: h4 :: r2 =>
            (parseStr r2).map (fun p =>
              (Char.ofNat (hexVal h1 * 4096 + hexVal h2 * 256 + hexVal h3 * 16 + hexVal h4)
                :: p.1, p.2))
          | _ => none
        else none
    else (parseStr rest).map (fun p => (c :: p.1, p.2))

theorem hexVal_hexChar (k : Nat) (h : k < 16) : hexVal (hexChar k) = k := by
  interval_cases k <;> decide

theorem escape_cons (c : Char) (s : List Char) :
    escape (c :: s) = escChars c ++ escape s := rfl

theorem parseStr_quote (rest : List Char) : parseStr ('\"' :: rest) = some ([], rest) := by
  rw [parseStr.eq_def]
  simp

theorem parseStr_escQuote (r : List Char) :
    parseStr ('\\' :: '\"' :: r) = (parseStr r).map (fun p => ('\"' :: p.1, p.2)) := by
  rw [parseStr.eq_def]
  simp

theorem parseStr_escBackslash (r : List Char) :
    parseStr ('\\' :: '\\' :: r) = (parseStr r).map (fun p => ('\\' :: p.1, p.2)) := by
  rw [parseStr.eq_def]
  simp

theorem parseStr_escU (h1 h2 h3 h4 : Char) (r2 : List Char) :
    parseStr ('\\' :: 'u' :: h1 :: h2 :: h3 :: h4 :: r2) =
      (parseStr r2).map (fun p =>
        (Char.ofNat (hexVal h1 * 4096 + hexVal h2 * 256 + hexVal h3 * 16 + hexVal h4)
          :: p.1, p.2)) := by
  rw [parseStr.eq_def]
  simp

theorem parseStr_other (c : Char) (hq : ¬(c = '\"')) (hb : ¬(c = '\\')) (rest : List Char) :
    parseStr (c :: rest) = (parseStr rest).map (fun p => (c :: p.1, p.2)) := by
  rw [parseStr.eq_def]
  simp [hq, hb]

theorem parseStr_escape (s : List Char) (rest : List Char) :
    parseStr (escape s ++ '\"' :: rest) = some (s, rest) := by
  induction s with
  | nil => simp only [escape, List.foldr_nil, List.nil_append, parseStr_quote]
  | cons c s ih =>
    rw [escape_cons, List.append_assoc]
    by_cases hq : c = '\"'
    · subst hq
      simp only [escChars, if_pos, List.cons_append, List.nil_append]
      rw [parseStr_escQuote, ih]
      rfl
    · by_cases hb : c = '\\'
      · subst hb
        simp only [escChars, if_neg (by decide : ¬('\\' = '\"')), if_pos,
          List.cons_append, List.nil_append]
        rw [parseStr_escBackslash, ih]
        rfl
      · by_cases hc : c.toNat < 32
        · have h16 : c.toNat / 16 < 16 := by omega
          have h16b : c.toNat % 16 < 16 := by omega
          simp only [escChars, if_neg hq, if_neg hb, if_pos hc,
            List.cons_append, List.nil_append]
          rw [parseStr_escU, ih]
          have hv : hexVal '0' * 4096 + hexVal '0' * 256 +
              hexVal (hexChar (c.toNat / 16)) * 16 + hexVal (hexChar (c.toNat % 16)) =
              c.toNat := by
            rw [hexVal_hexChar _ h16, hexVal_hexChar _ h16b]
            have h0 : hexVal '0' = 0 := by decide
            rw [h0]
            omega
          simp [hv, Char.ofNat_toNat]
        · simp only [escChars, if_neg hq, if_neg hb, if_neg hc,
            List.cons_append, List.nil_append]
          rw [parseStr_other c hq hb, ih]
          rfl

/-- The characters of the JSON null literal. -/
def litNull : List Char := ['n', 'u', 'l', 'l']

/-- The characters of the JSON true literal. -/
def litTrue : List Char := ['t', 'r', 'u', 'e']

/-- The characters of the JSON false literal. -/
def litFalse : List Char := ['f', 'a', 'l', 's', 'e']

mutual

/-- Serialize a JSON value in the compact form produced by ujson.dumps. -/
def dumpsV : JVal → List Char
  | .null => litNull
  | .bool true => litTrue
  | .bool false => litFalse
  | .num i => intChars i
  | .str s => '\"' :: (escape s.toList ++ ['\"'])
  | .arr [] => ['[', ']']
  | .arr (v :: vs) => '[' :: (dumpsV v ++ (dumpsItems vs ++ [']']))
  | .obj [] => ['\x7b', '\x7d']
  | .obj (kv :: kvs) => '\x7b' :: (dumpsKV kv ++ (dumpsMembers kvs ++ ['\x7d']))

/-- Serialize the items of an array after the first, each preceded by a comma. -/
def dumpsItems : List JVal → List Char
  | [] => []
  | v :: vs => ',' :: (dumpsV v ++ dumpsItems vs)

/-- Serialize one key-value member of an object. -/
def dumpsKV : String × JVal → List Char
  | (k, v) => '\"' :: (escape k.toList ++ ('\"' :: ':' :: dumpsV v))

/-- Serialize the members of an object after the first, each preceded by a comma. -/
def dumpsMembers : List (String × JVal) → List Char
  | [] => []
  | kv :: kvs => ',' :: (dumpsKV kv ++ dumpsMembers kvs)

end

mutual

/-- Parse one JSON value.  The fuel argument bounds the recursion and is
decremented on each nested call. -/
def parseVal : Nat → List Char → Option (JVal × List Char)
  | 0, _ => none
  | fuel + 1, cs =>
    match cs with
    | [] => none
    | c :: rest =>
      if c = 'n' then
        match rest with
        | c1 :: c2 :: c3 :: r =>
          if c1 = 'u' then if c2 = 'l' then if c3 = 'l' then some (.null, r)
            else none else none else none
        | _ => none
      else if c = 't' then
        match rest with
        | c1 :: c2 :: c3 :: r =>
          if c1 = 'r' then if c2 = 'u' then if c3 = 'e' then some (.bool true, r)
            else none else none else none
        | _ => none
      else if c = 'f' then
        match rest with
        | c1 :: c2 :: c3 :: c4 :: r =>
          if c1 = 'a' then if c2 = 'l' then if c3 = 's' then if c4 = 'e' then
            some (.bool false, r) else none else none else none else none
        | _ => none
      else if c = '\"' then
        (parseStr rest).map (fun p => (.str (String.mk p.1), p.2))
      else if c = '[' then
        match rest with
        | [] => none
        | r0 :: r1 =>
          if r0 = ']' then some (.arr [], r1)
          else (parseItems fuel rest).map (fun p => (.arr p.1, p.2))
      else if c = '\x7b' then
        match rest with
        | [] => none
        | r0 :: r1 =>
          if r0 = '\x7d' then some (.obj [], r1)
          else (parseMembers fuel rest).map (fun p => (.obj p.1, p.2))
      else
        (parseNum cs).map (fun p => (.num p.1, p.2))

/-- Parse the items of a non-empty array, up to the closing bracket. -/
def parseItems : Nat → List Char → Option (List JVal × List Char)
  | 0, _ => none
  | fuel + 1, cs =>
    match parseVal fuel cs with
    | none => none
    | some (v, r) =>
      match r with
      | [] => none
      | c :: r2 =>
        if c = ',' then (parseItems fuel r2).map (fun p => (v :: p.1, p.2))
        else if c = ']' then some ([v], r2)
        else none

/-- Parse the members of a non-empty object, up to the closing brace. -/
def parseMembers : Nat → List Char → Option (List (String × JVal) × List Char)
  | 0, _ => none
  | fuel + 1, cs =>
    match cs with
    | [] => none
    | c :: rest =>
      if c = '\"' then
        match parseStr rest with
        | none => none
        | some (k, r) =>
          match r with
          | [] => none
          | c1 :: r2 =>
            if c1 = ':' then
              match parseVal fuel r2 with
              | none => none
              | some (v, r3) =>
                match r3 with
                | [] => none
                | c2 :: r4 =>
                  if c2 = ',' then
                    (parseMembers fuel r4).map (fun p => ((String.mk k, v) :: p.1, p.2))
                  else if c2 = '\x7d' then some ([(String.mk k, v)], r4)
                  else none
            else none
      else none

end

theorem jval_mutual_ind (P : JVal → Prop) (Q : List JVal → Prop)
    (R : List (String × JVal) → Prop)
    (hnull : P .null) (hbool : ∀ b, P (.bool b)) (hnum : ∀ i, P (.num i))
    (hstr : ∀ s, P (.str s))
    (harr : ∀ l, Q l → P (.arr l)) (hobj : ∀ l, R l → P (.obj l))
    (hqnil : Q []) (hqcons : ∀ v vs, P v → Q vs → Q (v :: vs))
    (hrnil : R []) (hrcons : ∀ k v kvs, P v → R kvs → R ((k, v) :: kvs)) :
    ∀ v, P v := by
  intro v
  refine @JVal.rec P Q R (fun kv => P kv.2) hnull hbool hnum hstr harr hobj hqnil hqcons
    hrnil ?_ ?_ v
  · intro hd tl h4 h3
    obtain ⟨k, v'⟩ := hd
    exact hrcons k v' tl h4 h3
  · intro k v' h
    exact h

theorem char_ne_of_toNat_ne {c d : Char} (h : ¬(c.toNat = d.toNat)) : ¬(c = d) :=
  fun he => h (congrArg Char.toNat he)

theorem isDigit_toNat (c : Char) (h : isDigit c = true) :
    48 ≤ c.toNat ∧ c.toNat ≤ 57 := by
  simp [isDigit] at h
  omega

theorem intChars_head (i : Int) :
    ∃ c t, intChars i = c :: t ∧ (c.toNat = 45 ∨ (48 ≤ c.toNat ∧ c.toNat ≤ 57)) := by
  cases i with
  | ofNat n =>
    obtain ⟨c, t, hct, hdig⟩ := natChars_cons n
    exact ⟨c, t, by rw [intChars, hct], Or.inr (isDigit_toNat c hdig)⟩
  | negSucc m =>
    exact ⟨'-', natChars (m + 1), rfl, Or.inl rfl⟩

theorem jsize_le_dumps (v : JVal) : jsize v ≤ (dumpsV v).length := by
  refine jval_mutual_ind (fun v => jsize v ≤ (dumpsV v).length)
    (fun l => jsizeL l ≤ (dumpsItems l).length)
    (fun l => jsizeM l ≤ (dumpsMembers l).length)
    ?_ ?_ ?_ ?_ ?_ ?_ ?_ ?_ ?_ ?_ v
  · simp [jsize, dumpsV, litNull]
  · intro b
    cases b <;> simp [jsize, dumpsV, litTrue, litFalse]
  · intro i
    obtain ⟨c, t, hct, _⟩ := intChars_head i
    simp [jsize, dumpsV, hct]
  · intro s
    simp [jsize, dumpsV]
  · intro l hq
    cases l with
    | nil => simp [jsize, jsizeL, dumpsV]
    | cons v vs =>
      simp only [jsize, jsizeL, dumpsV, List.length_cons, List.length_append] at hq ⊢
      simp only [dumpsItems, List.length_cons, List.length_append] at hq
      omega
  · intro l hr
    cases l with
    | nil => simp [jsize, jsizeM, dumpsV]
    | cons kv kvs =>
      obtain ⟨k, v'⟩ := kv
      simp only [jsize, jsizeM, dumpsV, dumpsMembers, dumpsKV, List.length_cons,
        List.length_append] at hr ⊢
      omega
  · simp [jsizeL, dumpsItems]
  · intro v' vs hp hq
    simp only [jsizeL, dumpsItems, List.length_cons, List.length_append]
    omega
  · simp [jsizeM, dumpsMembers]
  · intro k v' kvs hp hr
    simp only [jsizeM, dumpsMembers, dumpsKV, List.length_cons, List.length_append]
    omega


theorem dumpsV_head (v : JVal) :
    ∃ c t, dumpsV v = c :: t ∧ ¬(c = ']') ∧ ¬(c = '\x7d') := by
  cases v with
  | null => exact ⟨'n', _, rfl, by decide, by decide⟩
  | bool b =>
    cases b
    · exact ⟨'f', _, rfl, by decide, by decide⟩
    · exact ⟨'t', _, rfl, by decide, by decide⟩
  | num i =>
    obtain ⟨c, t, hct, hc⟩ := intChars_head i
    refine ⟨c, t, by simp [dumpsV, hct], ?_, ?_⟩
    · exact char_ne_of_toNat_ne (by rw [show (']' : Char).toNat = 93 from rfl]; omega)
    · exact char_ne_of_toNat_ne (by rw [show ('\x7d' : Char).toNat = 125 from rfl]; omega)
  | str s => exact ⟨'\"', _, rfl, by decide, by decide⟩
  | arr l =>
    cases l
    · exact ⟨'[', _, rfl, by decide, by decide⟩
    · exact ⟨'[', _, rfl, by decide, by decide⟩
  | obj l =>
    cases l
    · exact ⟨'\x7b', _, rfl, by decide, by decide⟩
    · exact ⟨'\x7b', _, rfl, by decide, by decide⟩

theorem delimOk_items (vs : List JVal) (rest : List Char) :
    delimOk (dumpsItems vs ++ (']' :: rest)) = true := by
  cases vs <;> simp [dumpsItems, delimOk, isDigit]

theorem delimOk_members (kvs : List (String × JVal)) (rest : List Char) :
    delimOk (dumpsMembers kvs ++ ('\x7d' :: rest)) = true := by
  cases kvs <;> simp [dumpsMembers, dumpsKV, delimOk, isDigit]

theorem parseVal_nullStep (fuel : Nat) (r : List Char) :
    parseVal (fuel + 1) ('n' :: 'u' :: 'l' :: 'l' :: r) = some (.null, r) := by
  rw [parseVal.eq_def]
  simp

theorem parseVal_trueStep (fuel : Nat) (r : List Char) :
    parseVal (fuel + 1) ('t' :: 'r' :: 'u' :: 'e' :: r) = some (.bool true, r) := by
  rw [parseVal.eq_def]
  simp

theorem parseVal_falseStep (fuel : Nat) (r : List Char) :
    parseVal (fuel + 1) ('f' :: 'a' :: 'l' :: 's' :: 'e' :: r) = some (.bool false, r) := by
  rw [parseVal.eq_def]
  simp

theorem parseVal_strStep (fuel : Nat) (r : List Char) :
    parseVal (fuel + 1) ('\"' :: r) =
      (parseStr r).map (fun p => (.str (String.mk p.1), p.2)) := by
  rw [parseVal.eq_def]
  simp

theorem parseVal_arrEmptyStep (fuel : Nat) (r : List Char) :
    parseVal (fuel + 1) ('[' :: ']' :: r) = some (.arr [], r) := by
  rw [parseVal.eq_def]
  simp

theorem parseVal_arrStep (fuel : Nat) (c : Char) (t : List Char) (hc : ¬(c = ']')) :
    parseVal (fuel + 1) ('[' :: c :: t) =
      (parseItems fuel (c :: t)).map (fun p => (.arr p.1, p.2)) := by
  rw [parseVal.eq_def]
  simp [hc]

theorem parseVal_objEmptyStep (fuel : Nat) (r : List Char) :
    parseVal (fuel + 1) ('\x7b' :: '\x7d' :: r) = some (.obj [], r) := by
  rw [parseVal.eq_def]
  simp

theorem parseVal_objStep (fuel : Nat) (c : Char) (t : List Char) (hc : ¬(c = '\x7d')) :
    parseVal (fuel + 1) ('\x7b' :: c :: t) =
      (parseMembers fuel (c :: t)).map (fun p => (.obj p.1, p.2)) := by
  rw [parseVal.eq_def]
  simp [hc]

theorem parseVal_numStep (fuel : Nat) (c : Char) (t : List Char)
    (hc : c.toNat = 45 ∨ (48 ≤ c.toNat ∧ c.toNat ≤ 57)) :
    parseVal (fuel + 1) (c :: t) =
      (parseNum (c :: t)).map (fun p => (.num p.1, p.2)) := by
  have h1 : ¬(c = 'n') := by intro h; subst h; revert hc; decide
  have h2 : ¬(c = 't') := by intro h; subst h; revert hc; decide
  have h3 : ¬(c = 'f') := by intro h; subst h; revert hc; decide
  have h4 : ¬(c = '\"') := by intro h; subst h; revert hc; decide
  have h5 : ¬(c = '[') := by intro h; subst h; revert hc; decide
  have h6 : ¬(c = '\x7b') := by intro h; subst h; revert hc; decide
  rw [parseVal.eq_def]
  simp [h1, h2, h3, h4, h5, h6]

theorem string_mk_toList (s : String) : String.mk s.toList = s := rfl

theorem parse_dumps (fuel : Nat) :
    (∀ v rest, 2 * jsize v ≤ fuel → delimOk rest = true →
      parseVal fuel (dumpsV v ++ rest) = some (v, rest)) ∧
    (∀ v vs rest, 2 * (jsize v + jsizeL vs) + 1 ≤ fuel →
      parseItems fuel (dumpsV v ++ (dumpsItems vs ++ (']' :: rest))) =
        some (v :: vs, rest)) ∧
    (∀ k v kvs rest, 2 * (jsize v + jsizeM kvs) + 1 ≤ fuel →
      parseMembers fuel (dumpsKV (k, v) ++ (dumpsMembers kvs ++ ('\x7d' :: rest))) =
        some ((k, v) :: kvs, rest)) := by
  induction fuel with
  | zero =>
    refine ⟨?_, ?_, ?_⟩
    · intro v rest hsz _
      have := jsize_pos v
      omega
    · intro v vs rest hsz
      omega
    · intro k v kvs rest hsz
      omega
  | succ fuel ih =>
    obtain ⟨ihV, ihI, ihM⟩ := ih
    refine ⟨?_, ?_, ?_⟩
    · intro v rest hsz hdelim
      cases v with
      | null =>
        simp only [dumpsV, litNull, List.cons_append, List.nil_append]
        exact parseVal_nullStep fuel rest
      | bool b =>
        cases b
        · simp only [dumpsV, litFalse, List.cons_append, List.nil_append]
          exact parseVal_falseStep fuel rest
        · simp only [dumpsV, litTrue, List.cons_append, List.nil_append]
          exact parseVal_trueStep fuel rest
      | num i =>
        obtain ⟨c, t, hct, hc⟩ := intChars_head i
        have hnum := parseNum_intChars i rest hdelim
        rw [hct, List.cons_append] at hnum
        simp only [dumpsV]
        rw [hct, List.cons_append, parseVal_numStep fuel c _ hc, hnum]
        rfl
      | str s =>
        simp only [dumpsV, List.cons_append, List.append_assoc, List.nil_append]
        rw [parseVal_strStep, parseStr_escape]
        simp [string_mk_toList]
      | arr l =>
        cases l with
        | nil =>
          simp only [dumpsV, List.cons_append, List.nil_append]
          exact parseVal_arrEmptyStep fuel rest
        | cons v1 vs =>
          obtain ⟨c, t, hct, hne, _⟩ := dumpsV_head v1
          have hb : 2 * (jsize v1 + jsizeL vs) + 1 ≤ fuel := by
            simp only [jsize, jsizeL] at hsz
            omega
          have hI := ihI v1 vs rest hb
          simp only [dumpsV, List.cons_append, List.append_assoc, List.nil_append]
          rw [hct, List.cons_append] at hI ⊢
          rw [parseVal_arrStep fuel c _ hne, hI]
          rfl
      | obj l =>
        cases l with
        | nil =>
          simp only [dumpsV, List.cons_append, List.nil_append]
          exact parseVal_objEmptyStep fuel rest
        | cons kv kvs =>
          obtain ⟨k, v1⟩ := kv
          have hb : 2 * (jsize v1 + jsizeM kvs) + 1 ≤ fuel := by
            simp only [jsize, jsizeM] at hsz
            omega
          have hM := ihM k v1 kvs rest hb
          simp only [dumpsV, dumpsKV, List.cons_append, List.append_assoc,
            List.nil_append] at hM ⊢
          rw [parseVal_objStep fuel '\"' _ (by decide), hM]
          rfl
    · intro v vs rest hb
      have hV := ihV v (dumpsItems vs ++ (']' :: rest))
        (by have := jsize_pos v; omega) (delimOk_items vs rest)
      rw [parseItems.eq_def]
      simp only []
      rw [hV]
      cases vs with
      | nil =>
        simp [dumpsItems]
      | cons v2 vs' =>
        have hb2 : 2 * (jsize v2 + jsizeL vs') + 1 ≤ fuel := by
          have h1 := jsize_pos v
          simp only [jsizeL] at hb
          omega
        have hI := ihI v2 vs' rest hb2
        simp only [dumpsItems, List.cons_append, List.append_assoc]
        simp only [dumpsItems, List.cons_append, List.append_assoc] at hI
        simp [hI]
    · intro k v kvs rest hb
      rw [parseMembers.eq_def]
      simp only [dumpsKV, List.cons_append, List.append_assoc, List.nil_append]
      have hV := ihV v (dumpsMembers kvs ++ ('\x7d' :: rest))
        (by have := jsize_pos v; omega) (delimOk_members kvs rest)
      rw [parseStr_escape]
      simp only []
      rw [hV]
      cases kvs with
      | nil =>
        simp [dumpsMembers, string_mk_toList]
      | cons kv2 kvs' =>
        obtain ⟨k2, v2⟩ := kv2
        have hb2 : 2 * (jsize v2 + jsizeM kvs') + 1 ≤ fuel := by
          have h1 := jsize_pos v
          simp only [jsizeM] at hb
          omega
        have hM := ihM k2 v2 kvs' rest hb2
        simp only [dumpsMembers, List.cons_append, List.append_assoc]
        simp only [dumpsMembers, List.cons_append, List.append_assoc] at hM
        simp [hM, string_mk_toList]

/-- Serialize a JSON value to characters (model of ujson.dumps). -/
def ujson_dumps (v : JVal) : List Char := dumpsV v

/-- Parse a JSON document, rejecting trailing input (model of ujson.loads). -/
def ujson_loads_chars (cs : List Char) : Option JVal :=
  match parseVal (2 * cs.length + 1) cs with
  | some (v, []) => some v
  | _ => none

/-- Model of ujson.loads applied to a text string. -/
def ujson_loads (s : String) : Option JVal := ujson_loads_chars s.toList

theorem ujson_roundtrip (v : JVal) : ujson_loads_chars (ujson_dumps v) = some v := by
  have hsz : 2 * jsize v ≤ 2 * (dumpsV v).length + 1 := by
    have := jsize_le_dumps v
    omega
  have h := (parse_dumps (2 * (dumpsV v).length + 1)).1 v [] hsz rfl
  simp only [List.append_nil] at h
  simp [ujson_loads_chars, ujson_dumps, h]

/-- Modelled from the spec: force_bytes (zerver.lib.str_utils, outside the
excerpt) UTF-8-encodes text to bytes; bytes are modelled as character lists,
so the encoding is the identity. -/
def force_bytes (s : List Char) : List Char := s

/-- Modelled from the spec: decoding stored bytes as UTF-8 text, the inverse
direction of force_bytes; the identity in the byte model. -/
def utf8_decode (b : List Char) : List Char := b

/-- Modelled from the spec: dict_with_str_keys (zerver.lib.str_utils, outside
the excerpt) coerces the keys of a decoded mapping to strings; on the
string-keyed dicts of the model it is the identity. -/
def dict_with_str_keys (d : Dict) : Dict := d

/-- The zlib compression layer, abstracted as an external pair of byte
transformations; losslessness is a hypothesis of the round-trip theorem. -/
structure Zlib where
  compress : List Char → List Char
  decompress : List Char → List Char

/-- stringify_message_dict: compressed, UTF-8-encoded JSON serialization. -/
def stringify_message_dict (z : Zlib) (d : Dict) : List Char :=
  z.compress (force_bytes (ujson_dumps (.obj d)))

/-- extract_message_dict: decompress, decode, parse JSON, coerce keys. -/
def extract_message_dict (z : Zlib) (bytes : List Char) : Option Dict :=
  match ujson_loads_chars (utf8_decode (z.decompress bytes)) with
  | some (.obj kvs) => some (dict_with_str_keys kvs)
  | _ => none

/-- C3: for every dict with string keys and JSON-representable values,
extract_message_dict inverts stringify_message_dict exactly, provided the
compression layer is lossless (decompress after compress is the identity). -/
theorem extract_stringify_roundtrip (z : Zlib)
    (hz : ∀ b, z.decompress (z.compress b) = b) (d : Dict) :
    extract_message_dict z (stringify_message_dict z d) = some d := by
  simp [extract_message_dict, stringify_message_dict, force_bytes, utf8_decode, hz,
    ujson_roundtrip, dict_with_str_keys]

/-- The identity compression pair, used for concrete evaluations. -/
def zlibId : Zlib := ⟨fun b => b, fun b => b⟩

/-- Witness for C3: the round-trip law applied at a concrete two-entry dict
with a lossless compression pair. -/
theorem extract_stringify_roundtrip_witness :
    extract_message_dict zlibId (stringify_message_dict zlibId
      [("a", .num 1), ("b", .str "x")]) = some [("a", .num 1), ("b", .str "x")] :=
  extract_stringify_roundtrip zlibId (fun _ => rfl) [("a", .num 1), ("b", .str "x")]

namespace Recipient

/-- Modelled from the spec: Recipient.PERSONAL (zerver.models, outside the
excerpt), the one-to-one recipient type. -/
def PERSONAL : Nat := 1

/-- Modelled from the spec: Recipient.STREAM, the broadcast recipient type. -/
def STREAM : Nat := 2

/-- Modelled from the spec: Recipient.HUDDLE, the group recipient type. -/
def HUDDLE : Nat := 3

end Recipient

/-- A participant descriptor as produced by the recipient resolver and as
constructed for the sender in build_message_dict (lines 149-154). -/
structure UserDescriptor where
  email : String
  domain : String
  full_name : String
  short_name : String
  id : Int
  is_mirror_dummy : Bool
deriving DecidableEq

/-- A resolved display recipient: a bare stream name, or an ordered sequence
of participant descriptors for personal and huddle messages. -/
inductive DisplayRecipient where
  | streamName : String → DisplayRecipient
  | users : List UserDescriptor → DisplayRecipient
deriving DecidableEq

/-- JSON form of a participant descriptor, with the key order of the dict
literal in build_message_dict. -/
def UserDescriptor.toJVal (u : UserDescriptor) : JVal :=
  .obj [("email", .str u.email), ("domain", .str u.domain),
        ("full_name", .str u.full_name), ("short_name", .str u.short_name),
        ("id", .num u.id), ("is_mirror_dummy", .bool u.is_mirror_dummy)]

/-- JSON form of a display recipient. -/
def DisplayRecipient.toJVal : DisplayRecipient → JVal
  | .streamName s => .str s
  | .users us => .arr (us.map UserDescriptor.toJVal)

/-- The sender's realm, as joined onto the message record. -/
structure RealmRec where
  domain : String
deriving DecidableEq

/-- The sender, as joined onto the message record. -/
structure SenderRec where
  id : Int
  email : String
  full_name : String
  short_name : String
  avatar_source : String
  is_mirror_dummy : Bool
  realm : RealmRec
deriving DecidableEq

/-- The sending client, as joined onto the message record. -/
structure ClientRec where
  name : String
deriving DecidableEq

/-- The recipient row referenced by the message. -/
structure RecipientRec where
  id : Int
  type : Nat
  type_id : Int
deriving DecidableEq

/-- A fully materialized message record with joined sender, client and
recipient; datetimes are represented by their epoch seconds. -/
structure MessageRec where
  id : Int
  content : String
  subject : String
  pub_date : Int
  last_edit_time : Option Int
  edit_history : Option String
  rendered_content : Option String
  rendered_content_version : Option Nat
  sender : SenderRec
  sending_client : ClientRec
  recipient : RecipientRec
deriving DecidableEq

/-- A flat row projection from a .values() call, with the keys read by
build_dict_from_raw_db_row (lines 86-104). -/
structure Row where
  id : Int
  last_edit_time : Option Int
  edit_history : Option String
  content : String
  subject : String
  pub_date : Int
  rendered_content : Option String
  rendered_content_version : Option Nat
  sender_id : Int
  sender__email : String
  sender__realm__domain : String
  sender__full_name : String
  sender__short_name : String
  sender__avatar_source : String
  sender__is_mirror_dummy : Bool
  sending_client__name : String
  recipient_id : Int
  recipient__type : Nat
  recipient__type_id : Int
deriving DecidableEq

/-- The primitive field set passed to build_message_dict: its keyword
arguments apart from apply_markdown and message (lines 108-129). -/
structure BuildArgs where
  message_id : Int
  last_edit_time : Option Int
  edit_history : Option String
  content : String
  subject : String
  pub_date : Int
  rendered_content : Option String
  rendered_content_version : Option Nat
  sender_id : Int
  sender_email : String
  sender_realm_domain : String
  sender_full_name : String
  sender_short_name : String
  sender_avatar_source : String
  sender_is_mirror_dummy : Bool
  sending_client_name : String
  recipient_id : Int
  recipient_type : Nat
  recipient_type_id : Int
deriving DecidableEq

/-- The record store, keyed by message id. -/
abbrev Store := List (Int × MessageRec)

/-- Modelled from the spec: Message.objects.select_related().get(id=...)
(line 195), a fetch of the full record by id from the record store. -/
def fetch_message_by_id (store : Store) (mid : Int) : Option MessageRec :=
  (store.find? (fun p => p.1 == mid)).map (fun p => p.2)

/-- Side effects performed by a build, in order: the record re-fetch, the
markdown render, and the rendered-content persistence. -/
inductive Eff where
  | fetch : Int → Eff
  | render : Eff
  | persist : Eff
deriving DecidableEq

/-- Fatal outcomes of build_message_dict: the assertion on a string display
recipient for a private message (line 144), the unbound display_type name
for an unknown recipient type (a NameError at line 167), the ujson TypeError
on a null edit_history and ValueError on malformed edit_history (line 180),
and a missing record on re-fetch (line 195). -/
inductive BuildErr where
  | assertionError : BuildErr
  | unboundDisplayType : BuildErr
  | jsonTypeError : BuildErr
  | jsonValueError : BuildErr
  | recordNotFound : Int → BuildErr
deriving DecidableEq

/-- The collaborators consumed by the builder, all outside the excerpt and
modelled from the spec as deterministic functions: get_avatar_url
(zerver.lib.avatar), gravatar_hash (zerver.lib.avatar_hash), subject_links
and the renderer version (zerver.lib.bugdown), get_display_recipient_by_id
(zerver.models), render_markdown (Message.render_markdown, returning none
for the unparseable sentinel), save_ok (whether save_rendered_content's
persistence succeeds), and the zlib compression pair. -/
structure Env where
  get_avatar_url : String → String → String
  gravatar_hash : String → String
  subject_links : String → String → List String
  get_display_recipient_by_id : Int → Nat → Int → DisplayRecipient
  render_markdown : String → String → Option String
  bugdown_version : Nat
  save_ok : Bool
  zlib : Zlib

/-- Modelled from the spec: datetime_to_timestamp (zerver.lib.timestamp,
outside the excerpt) converts a datetime to integer epoch seconds; datetimes
are already represented by their epoch seconds, so it is the identity. -/
def datetime_to_timestamp (d : Int) : Int := d

/-- Modelled from the spec: Message.need_to_render_content (zerver.models,
outside the excerpt) reports the stored rendered content stale when it is
absent, when its version is absent, or when its version is below the current
renderer version. -/
def need_to_render_content (rendered_content : Option String)
    (rendered_content_version : Option Nat) (bugdown_version : Nat) : Bool :=
  rendered_content.isNone || rendered_content_version.isNone ||
    (rendered_content_version.getD 0 < bugdown_version)

/-- Modelled from the spec: Message.save_rendered_content (zerver.models,
outside the excerpt) persists the rendered body and version onto the record,
best-effort: on a persistence failure (save_ok false) the store is unchanged
and no error reaches the in-flight build. -/
def save_rendered_content (env : Env) (store : Store) (mid : Int)
    (rendered : Option String) (version : Nat) : Store :=
  if env.save_ok then
    store.map (fun p =>
      if p.1 == mid then
        (p.1, { p.2 with rendered_content := rendered,
                         rendered_content_version := some version })
      else p)
  else store

/-- The fixed fallback notice substituted when rendering returns the
unparseable sentinel (line 207). -/
def unparseable_notice : String :=
  "<p>[Zulip note: Sorry, we could not understand the formatting of your message]</p>"

/-- The sender's own descriptor as constructed at lines 149-154. -/
def senderDescriptor (a : BuildArgs) : UserDescriptor :=
  { email := a.sender_email, domain := a.sender_realm_domain,
    full_name := a.sender_full_name, short_name := a.sender_short_name,
    id := a.sender_id, is_mirror_dummy := a.sender_is_mirror_dummy }

/-- Lexicographic code-point comparison of character lists, the order Python
uses to compare strings. -/
def charsLt : List Char → List Char → Bool
  | [], [] => false
  | [], _ :: _ => true
  | _ :: _, [] => false
  | c :: s, d :: t =>
    if c.toNat < d.toNat then true
    else if d.toNat < c.toNat then false
    else charsLt s t

/-- Python's < on strings: lexicographic comparison by code point. -/
def pyStrLt (s t : String) : Bool := charsLt s.toList t.toList

/-- The singleton-participant insertion (lines 146-158): the sender's
descriptor is placed before or after the sole participant by ascending
email, and an equal email (self-message) leaves the sequence unchanged. -/
def insert_sender (a : BuildArgs) (d0 : UserDescriptor) : List UserDescriptor :=
  if pyStrLt (senderDescriptor a).email d0.email then [senderDescriptor a, d0]
  else if pyStrLt d0.email (senderDescriptor a).email then [d0, senderDescriptor a]
  else [d0]

/-- The recipient-type branch of build_message_dict (lines 141-158): fix
display_type, assert that a private display recipient is not a bare string,
and apply the singleton-participant insertion.  An unknown recipient type
leaves display_type unbound, a fatal NameError at the dict construction
(line 167), modelled as an error. -/
def normalize_recipient (a : BuildArgs) (dr : DisplayRecipient) :
    Except BuildErr (String × DisplayRecipient) :=
  if a.recipient_type = Recipient.STREAM then .ok ("stream", dr)
  else if a.recipient_type = Recipient.HUDDLE ∨ a.recipient_type = Recipient.PERSONAL then
    match dr with
    | .streamName _ => .error .assertionError
    | .users us =>
      match us with
      | [d0] => .ok ("private", .users (insert_sender a d0))
      | _ => .ok ("private", .users us)
  else .error .unboundDisplayType

/-- The fixed keys of the output dict in source order (lines 160-176): the
dict literal, followed by the subject_links assignment. -/
def base_obj (env : Env) (a : BuildArgs) (display_type : String)
    (display_recipient : DisplayRecipient) : Dict :=
  [("id", .num a.message_id),
   ("sender_email", .str a.sender_email),
   ("sender_full_name", .str a.sender_full_name),
   ("sender_short_name", .str a.sender_short_name),
   ("sender_domain", .str a.sender_realm_domain),
   ("sender_id", .num a.sender_id),
   ("type", .str display_type),
   ("display_recipient", display_recipient.toJVal),
   ("recipient_id", .num a.recipient_id),
   ("subject", .str a.subject),
   ("timestamp", .num (datetime_to_timestamp a.pub_date)),
   ("gravatar_hash", .str (env.gravatar_hash a.sender_email)),
   ("avatar_url", .str (env.get_avatar_url a.sender_avatar_source a.sender_email)),
   ("client", .str a.sending_client_name),
   ("subject_links",
     .arr ((env.subject_links a.sender_realm_domain.toLower a.subject).map .str))]

/-- The steps of build_message_dict before the content resolution (lines
133-180): avatar and display-recipient resolution, the recipient-type
branch, the fixed keys of the output dict in source order, and the edit
metadata added when last_edit_time is non-null. -/
def build_pre (env : Env) (a : BuildArgs) : Except BuildErr Dict :=
  match normalize_recipient a
      (env.get_display_recipient_by_id a.recipient_id a.recipient_type
        a.recipient_type_id) with
  | .error e => .error e
  | .ok (display_type, display_recipient) =>
    match a.last_edit_time with
    | none => .ok (base_obj env a display_type display_recipient)
    | some t =>
      match a.edit_history with
      | none => .error .jsonTypeError
      | some eh =>
        match ujson_loads eh with
        | none => .error .jsonValueError
        | some v =>
          .ok (base_obj env a display_type display_recipient ++
            [("last_edit_timestamp", .num (datetime_to_timestamp t)),
             ("edit_history", v)])

/-- Result of a build: the output dict, the record store after any
persistence, and the trace of side effects in order. -/
structure BuildOut where
  dict : Dict
  store : Store
  trace : List Eff

/-- Obtain the full record for the stale-render path: the supplied message
object, or a re-fetch by id (lines 184-195), which fails with RecordNotFound
when the store has no such row. -/
def get_message_for_render (store : Store) (message : Option MessageRec)
    (mid : Int) : Except BuildErr (MessageRec × List Eff) :=
  match message with
  | some m => .ok (m, [])
  | none =>
    match fetch_message_by_id store mid with
    | some m => .ok (m, [Eff.fetch mid])
    | none => .error (.recordNotFound mid)

/-- The content keys written in the markdown-on case (lines 204-209): the
rendered body, or the fallback notice when it is the unparseable sentinel,
with content_type text/html either way. -/
def markdown_content (obj : Dict) (rendered : Option String) : Dict :=
  match rendered with
  | some rc => obj ++ [("content", .str rc), ("content_type", .str "text/html")]
  | none => obj ++ [("content", .str unparseable_notice),
                    ("content_type", .str "text/html")]

/-- MessageDict.build_message_dict (lines 107-214): build_pre for the fixed
keys, then the content resolution.  With apply_markdown false the raw body
and text/x-markdown are written and nothing else happens.  With it true, a
stale render obtains the record (re-fetching by id when none was supplied),
renders, persists best-effort, and uses the fresh rendered body; a fresh
store uses the stored rendered body; a null rendered body becomes the
fallback notice. -/
def build_message_dict (env : Env) (store : Store) (apply_markdown : Bool)
    (message : Option MessageRec) (a : BuildArgs) : Except BuildErr BuildOut :=
  match build_pre env a with
  | .error e => .error e
  | .ok obj =>
    if apply_markdown then
      if need_to_render_content a.rendered_content a.rendered_content_version
          env.bugdown_version then
        match get_message_for_render store message a.message_id with
        | .error e => .error e
        | .ok (m, tr) =>
          .ok ⟨markdown_content obj (env.render_markdown a.content a.sender_realm_domain),
               save_rendered_content env store m.id
                 (env.render_markdown a.content a.sender_realm_domain)
                 env.bugdown_version,
               tr ++ [Eff.render, Eff.persist]⟩
      else .ok ⟨markdown_content obj a.rendered_content, store, []⟩
    else
      .ok ⟨obj ++ [("content", .str a.content),
                   ("content_type", .str "text/x-markdown")], store, []⟩

/-- The field extraction performed by to_dict_uncached_helper (lines 52-74). -/
def MessageRec.toArgs (m : MessageRec) : BuildArgs :=
  { message_id := m.id, last_edit_time := m.last_edit_time,
    edit_history := m.edit_history, content := m.content, subject := m.subject,
    pub_date := m.pub_date, rendered_content := m.rendered_content,
    rendered_content_version := m.rendered_content_version,
    sender_id := m.sender.id, sender_email := m.sender.email,
    sender_realm_domain := m.sender.realm.domain,
    sender_full_name := m.sender.full_name,
    sender_short_name := m.sender.short_name,
    sender_avatar_source := m.sender.avatar_source,
    sender_is_mirror_dummy := m.sender.is_mirror_dummy,
    sending_client_name := m.sending_client.name,
    recipient_id := m.recipient.id, recipient_type := m.recipient.type,
    recipient_type_id := m.recipient.type_id }

/-- MessageDict.to_dict_uncached_helper (lines 49-74): build from a fully
materialized record, passing the record itself as the message argument. -/
def to_dict_uncached_helper (env : Env) (store : Store) (m : MessageRec)
    (apply_markdown : Bool) : Except BuildErr BuildOut :=
  build_message_dict env store apply_markdown (some m) m.toArgs

/-- The field extraction performed by build_dict_from_raw_db_row (76-105). -/
def Row.toArgs (r : Row) : BuildArgs :=
  { message_id := r.id, last_edit_time := r.last_edit_time,
    edit_history := r.edit_history, content := r.content, subject := r.subject,
    pub_date := r.pub_date, rendered_content := r.rendered_content,
    rendered_content_version := r.rendered_content_version,
    sender_id := r.sender_id, sender_email := r.sender__email,
    sender_realm_domain := r.sender__realm__domain,
    sender_full_name := r.sender__full_name,
    sender_short_name := r.sender__short_name,
    sender_avatar_source := r.sender__avatar_source,
    sender_is_mirror_dummy := r.sender__is_mirror_dummy,
    sending_client_name := r.sending_client__name,
    recipient_id := r.recipient_id, recipient_type := r.recipient__type,
    recipient_type_id := r.recipient__type_id }

/-- MessageDict.build_dict_from_raw_db_row (lines 76-105): build from a flat
row projection, passing no message object. -/
def build_dict_from_raw_db_row (env : Env) (store : Store) (r : Row)
    (apply_markdown : Bool) : Except BuildErr BuildOut :=
  build_message_dict env store apply_markdown none r.toArgs

/-- The flat row projection of a record, carrying the same value for each
primitive field the record adapter extracts. -/
def MessageRec.toRow (m : MessageRec) : Row :=
  { id := m.id, last_edit_time := m.last_edit_time,
    edit_history := m.edit_history, content := m.content, subject := m.subject,
    pub_date := m.pub_date, rendered_content := m.rendered_content,
    rendered_content_version := m.rendered_content_version,
    sender_id := m.sender.id, sender__email := m.sender.email,
    sender__realm__domain := m.sender.realm.domain,
    sender__full_name := m.sender.full_name,
    sender__short_name := m.sender.short_name,
    sender__avatar_source := m.sender.avatar_source,
    sender__is_mirror_dummy := m.sender.is_mirror_dummy,
    sending_client__name := m.sending_client.name,
    recipient_id := m.recipient.id, recipient__type := m.recipient.type,
    recipient__type_id := m.recipient.type_id }

/-- Result of to_dict_uncached: the encoded bytes with the store and trace. -/
structure UncachedOut where
  bytes : List Char
  store : Store
  trace : List Eff

/-- MessageDict.to_dict_uncached (lines 43-47): build the dict from the
record and encode it with stringify_message_dict. -/
def to_dict_uncached (env : Env) (store : Store) (m : MessageRec)
    (apply_markdown : Bool) : Except BuildErr UncachedOut :=
  match to_dict_uncached_helper env store m apply_markdown with
  | .error e => .error e
  | .ok out => .ok ⟨stringify_message_dict env.zlib out.dict, out.store, out.trace⟩

theorem dictGet_append_none (d l : Dict) (k : String) (h : dictGet d k = none) :
    dictGet (d ++ l) k = dictGet l k := by
  simp only [dictGet, List.find?_append]
  simp only [dictGet] at h
  cases hf : d.find? (fun p => p.1 == k) with
  | none => simp [hf]
  | some v => rw [hf] at h; simp at h

theorem dictGet_append_some (d l : Dict) (k : String) (v : JVal)
    (h : dictGet d k = some v) : dictGet (d ++ l) k = some v := by
  simp only [dictGet, List.find?_append]
  simp only [dictGet] at h
  cases hf : d.find? (fun p => p.1 == k) with
  | none => rw [hf] at h; simp at h
  | some w => rw [hf] at h; simpa using h

/-- Decomposition of a successful build_pre: the normalisation succeeded and
the dict is the base keys, extended by the two edit-metadata keys exactly
when last_edit_time is set. -/
theorem build_pre_cases (env : Env) (a : BuildArgs) (obj : Dict)
    (h : build_pre env a = .ok obj) :
    ∃ dt dr,
      normalize_recipient a (env.get_display_recipient_by_id a.recipient_id
        a.recipient_type a.recipient_type_id) = .ok (dt, dr) ∧
      ((a.last_edit_time = none ∧ obj = base_obj env a dt dr) ∨
       (∃ t eh v, a.last_edit_time = some t ∧ a.edit_history = some eh ∧
         ujson_loads eh = some v ∧
         obj = base_obj env a dt dr ++
           [("last_edit_timestamp", .num (datetime_to_timestamp t)),
            ("edit_history", v)])) := by
  unfold build_pre at h
  split at h
  · exact absurd h (by simp)
  · rename_i dt dr heq
    refine ⟨dt, dr, heq, ?_⟩
    split at h
    · cases h
      exact Or.inl ⟨by assumption, rfl⟩
    · rename_i t ht
      split at h
      · exact absurd h (by simp)
      · rename_i eh hh
        split at h
        · exact absurd h (by simp)
        · rename_i v hv
          cases h
          exact Or.inr ⟨t, eh, v, ht, hh, hv, rfl⟩

/-- build_pre never writes the content keys. -/
theorem build_pre_no_content (env : Env) (a : BuildArgs) (obj : Dict)
    (h : build_pre env a = .ok obj) :
    dictGet obj "content" = none ∧ dictGet obj "content_type" = none := by
  obtain ⟨dt, dr, _, hcase⟩ := build_pre_cases env a obj h
  rcases hcase with ⟨_, rfl⟩ | ⟨t, eh, v, _, _, _, rfl⟩
  · exact ⟨rfl, rfl⟩
  · constructor
    · rw [dictGet_append_none]
      · rfl
      · rfl
    · rw [dictGet_append_none]
      · rfl
      · rfl


/-- A successful build appends exactly the two content keys to the
build_pre dict, with content_type text/html in the markdown case and
text/x-markdown otherwise. -/
theorem build_ok_decomp (env : Env) (store : Store) (b : Bool)
    (message : Option MessageRec) (a : BuildArgs) (out : BuildOut)
    (h : build_message_dict env store b message a = .ok out) :
    ∃ obj cv, build_pre env a = .ok obj ∧
      out.dict = obj ++ [("content", .str cv),
        ("content_type", .str (if b = true then "text/html"
                               else "text/x-markdown"))] := by
  unfold build_message_dict at h
  split at h
  · exact absurd h (by simp)
  · rename_i obj hpre
    split at h
    · rename_i hb
      split at h
      · split at h
        · exact absurd h (by simp)
        · rename_i p hget
          cases h
          cases hr : env.render_markdown a.content a.sender_realm_domain with
          | some rc =>
            exact ⟨obj, rc, hpre, by simp [markdown_content, hr, hb]⟩
          | none =>
            exact ⟨obj, unparseable_notice, hpre, by simp [markdown_content, hr, hb]⟩
      · cases h
        cases hr : a.rendered_content with
        | some rc =>
          exact ⟨obj, rc, hpre, by simp [markdown_content, hr, hb]⟩
        | none =>
          exact ⟨obj, unparseable_notice, hpre, by simp [markdown_content, hr, hb]⟩
    · rename_i hb
      cases h
      exact ⟨obj, a.content, hpre, by simp [hb]⟩

/-- C4: with apply_markdown false, build_message_dict returns a dict whose
content is the raw stored body and whose content_type is text/x-markdown,
with no render or persist effects and the record store unchanged. -/
theorem markdown_off_passthrough (env : Env) (store : Store)
    (message : Option MessageRec) (a : BuildArgs) (out : BuildOut)
    (h : build_message_dict env store false message a = .ok out) :
    dictGet out.dict "content" = some (.str a.content) ∧
    dictGet out.dict "content_type" = some (.str "text/x-markdown") ∧
    out.store = store ∧ out.trace = [] := by
  have hd := build_ok_decomp env store false message a out h
  obtain ⟨obj, cv, hpre, hdict⟩ := hd
  have hnc := build_pre_no_content env a obj hpre
  unfold build_message_dict at h
  rw [hpre] at h
  simp only [Bool.false_eq_true, if_false] at h
  cases h
  refine ⟨?_, ?_, rfl, rfl⟩
  · rw [dictGet_append_none _ _ _ hnc.1]
    rfl
  · rw [dictGet_append_none _ _ _ hnc.2]
    rfl

/-- C6: in a successful build the keys last_edit_timestamp and edit_history
are present exactly when last_edit_time is non-null: with it null neither
key appears; with it set, last_edit_timestamp holds the epoch seconds and
edit_history holds the JSON value parsed from the stored serialized string,
not the raw string. -/
theorem edit_metadata_iff (env : Env) (store : Store) (b : Bool)
    (message : Option MessageRec) (a : BuildArgs) (out : BuildOut)
    (h : build_message_dict env store b message a = .ok out) :
    (a.last_edit_time = none →
      dictGet out.dict "last_edit_timestamp" = none ∧
      dictGet out.dict "edit_history" = none) ∧
    (∀ t, a.last_edit_time = some t →
      ∃ eh v, a.edit_history = some eh ∧ ujson_loads eh = some v ∧
        dictGet out.dict "last_edit_timestamp" =
          some (.num (datetime_to_timestamp t)) ∧
        dictGet out.dict "edit_history" = some v) := by
  obtain ⟨obj, cv, hpre, hdict⟩ := build_ok_decomp env store b message a out h
  obtain ⟨dt, dr, _, hcase⟩ := build_pre_cases env a obj hpre
  constructor
  · intro hnone
    rcases hcase with ⟨_, rfl⟩ | ⟨t, eh, v, ht, _, _, _⟩
    · rw [hdict]
      constructor
      · rw [dictGet_append_none]
        · rfl
        · rfl
      · rw [dictGet_append_none]
        · rfl
        · rfl
    · rw [hnone] at ht
      exact absurd ht (by simp)
  · intro t ht
    rcases hcase with ⟨hnone, _⟩ | ⟨t2, eh, v, ht2, heh, hv, hobj⟩
    · rw [hnone] at ht
      exact absurd ht (by simp)
    · rw [ht] at ht2
      have ht3 : t = t2 := by injection ht2
      subst ht3
      refine ⟨eh, v, heh, hv, ?_, ?_⟩
      · rw [hdict, hobj, List.append_assoc]
        rw [dictGet_append_none]
        · rfl
        · rfl
      · rw [hdict, hobj, List.append_assoc]
        rw [dictGet_append_none]
        · rfl
        · rfl

/-- C5: with apply_markdown true, a stale render gate, the record obtained
(supplied or re-fetched) and a render returning the unparseable sentinel,
build_message_dict does not raise: it returns the dict with the fixed
fallback notice as content and content_type text/html, after persisting the
sentinel best-effort. -/
theorem unparseable_fallback (env : Env) (store : Store)
    (message : Option MessageRec) (m : MessageRec) (tr : List Eff)
    (a : BuildArgs) (obj : Dict)
    (hpre : build_pre env a = .ok obj)
    (hgate : need_to_render_content a.rendered_content
      a.rendered_content_version env.bugdown_version = true)
    (hmsg : get_message_for_render store message a.message_id = .ok (m, tr))
    (hrender : env.render_markdown a.content a.sender_realm_domain = none) :
    build_message_dict env store true message a =
      .ok ⟨obj ++ [("content", .str unparseable_notice),
                   ("content_type", .str "text/html")],
           save_rendered_content env store m.id none env.bugdown_version,
           tr ++ [Eff.render, Eff.persist]⟩ ∧
    dictGet (obj ++ [("content", .str unparseable_notice),
                     ("content_type", .str "text/html")]) "content" =
      some (.str unparseable_notice) ∧
    dictGet (obj ++ [("content", .str unparseable_notice),
                     ("content_type", .str "text/html")]) "content_type" =
      some (.str "text/html") := by
  have hnc := build_pre_no_content env a obj hpre
  refine ⟨?_, ?_, ?_⟩
  · unfold build_message_dict
    rw [hpre]
    simp only [if_pos rfl, hgate, if_true]
    rw [hmsg]
    simp [hrender, markdown_content]
  · rw [dictGet_append_none _ _ _ hnc.1]
    rfl
  · rw [dictGet_append_none _ _ _ hnc.2]
    rfl

/-- C2: with apply_markdown true, a stale render gate, the record obtained
(supplied or re-fetched) and a fresh rendered body, a persistence failure
(save_ok false) does not abort the build: the dict is returned with the
freshly computed rendered body as content and the record store unchanged. -/
theorem save_failure_tolerated (env : Env) (store : Store)
    (message : Option MessageRec) (m : MessageRec) (tr : List Eff)
    (a : BuildArgs) (obj : Dict) (rc : String)
    (hpre : build_pre env a = .ok obj)
    (hgate : need_to_render_content a.rendered_content
      a.rendered_content_version env.bugdown_version = true)
    (hmsg : get_message_for_render store message a.message_id = .ok (m, tr))
    (hrender : env.render_markdown a.content a.sender_realm_domain = some rc)
    (hsave : env.save_ok = false) :
    build_message_dict env store true message a =
      .ok ⟨obj ++ [("content", .str rc), ("content_type", .str "text/html")],
           store, tr ++ [Eff.render, Eff.persist]⟩ ∧
    dictGet (obj ++ [("content", .str rc), ("content_type", .str "text/html")])
      "content" = some (.str rc) := by
  have hnc := build_pre_no_content env a obj hpre
  constructor
  · unfold build_message_dict
    rw [hpre]
    simp only [if_pos rfl, hgate, if_true]
    rw [hmsg]
    simp [hrender, markdown_content, save_rendered_content, hsave]
  · rw [dictGet_append_none _ _ _ hnc.1]
    rfl

/-- C7: when the render gate reports the stored rendered content fresh, a
build leaves the record store unchanged and performs no effects, so running
to_dict_uncached again from the resulting store returns the identical
encoded bytes: two runs with identical inputs are byte-identical. -/
theorem to_dict_uncached_deterministic (env : Env) (store : Store)
    (m : MessageRec) (b : Bool) (out : UncachedOut)
    (hgate : need_to_render_content m.rendered_content
      m.rendered_content_version env.bugdown_version = false)
    (h : to_dict_uncached env store m b = .ok out) :
    out.store = store ∧ out.trace = [] ∧
    to_dict_uncached env out.store m b = .ok out := by
  have hgate2 : need_to_render_content m.toArgs.rendered_content
      m.toArgs.rendered_content_version env.bugdown_version = false := hgate
  have hform : ∀ o, to_dict_uncached_helper env store m b = .ok o →
      o.store = store ∧ o.trace = [] := by
    intro o ho
    unfold to_dict_uncached_helper build_message_dict at ho
    split at ho
    · exact absurd ho (by simp)
    · split at ho
      · rw [hgate2] at ho
        simp only [Bool.false_eq_true, if_false] at ho
        cases ho
        exact ⟨rfl, rfl⟩
      · cases ho
        exact ⟨rfl, rfl⟩
  unfold to_dict_uncached at h ⊢
  split at h
  · exact absurd h (by simp)
  · rename_i o ho
    cases h
    obtain ⟨hs, htr⟩ := hform o ho
    refine ⟨hs, htr, ?_⟩
    rw [hs, ho]
    simp [hs]

/-- C9: a recipient type that is none of STREAM, PERSONAL or HUDDLE is fatal
(the display_type name is never bound, a NameError), and a bare-string
display recipient for a PERSONAL or HUDDLE message fails the assertion;
neither case returns a dict. -/
theorem invalid_recipient_fatal (env : Env) (store : Store) (b : Bool)
    (message : Option MessageRec) (a : BuildArgs) :
    (¬(a.recipient_type = Recipient.STREAM) →
     ¬(a.recipient_type = Recipient.PERSONAL) →
     ¬(a.recipient_type = Recipient.HUDDLE) →
      build_message_dict env store b message a = .error .unboundDisplayType) ∧
    (∀ s, (a.recipient_type = Recipient.PERSONAL ∨
           a.recipient_type = Recipient.HUDDLE) →
      env.get_display_recipient_by_id a.recipient_id a.recipient_type
        a.recipient_type_id = .streamName s →
      build_message_dict env store b message a = .error .assertionError) := by
  constructor
  · intro h1 h2 h3
    have hn : normalize_recipient a (env.get_display_recipient_by_id
        a.recipient_id a.recipient_type a.recipient_type_id) =
        .error .unboundDisplayType := by
      unfold normalize_recipient
      rw [if_neg h1, if_neg ?_]
      · intro hor
        rcases hor with h | h
        · exact h3 h
        · exact h2 h
    unfold build_message_dict build_pre
    rw [hn]
  · intro s htype hres
    have hn : normalize_recipient a (env.get_display_recipient_by_id
        a.recipient_id a.recipient_type a.recipient_type_id) =
        .error .assertionError := by
      unfold normalize_recipient
      rw [hres, if_neg ?_, if_pos ?_]
      · rcases htype with h | h
        · exact Or.inr h
        · exact Or.inl h
      · intro hs
        rcases htype with h | h
        · rw [h] at hs
          exact absurd hs (by decide)
        · rw [h] at hs
          exact absurd hs (by decide)
    unfold build_message_dict build_pre
    rw [hn]

/-- C10: with last_edit_time set and the stored edit_history null, the build
raises (the TypeError from ujson.loads on a null) rather than returning a
dict; for a stream recipient the error is exactly that TypeError. -/
theorem null_edit_history_raises (env : Env) (store : Store) (b : Bool)
    (message : Option MessageRec) (a : BuildArgs) (t : Int)
    (ht : a.last_edit_time = some t) (heh : a.edit_history = none) :
    (∀ out, ¬(build_message_dict env store b message a = .ok out)) ∧
    (a.recipient_type = Recipient.STREAM →
      build_message_dict env store b message a = .error .jsonTypeError) := by
  have hpre : ∀ obj, ¬(build_pre env a = .ok obj) := by
    intro obj hok
    obtain ⟨dt, dr, _, hcase⟩ := build_pre_cases env a obj hok
    rcases hcase with ⟨hn, _⟩ | ⟨t2, eh, _, _, heh2, _, _⟩
    · rw [ht] at hn
      exact absurd hn (by simp)
    · rw [heh] at heh2
      exact absurd heh2 (by simp)
  constructor
  · intro out hok
    obtain ⟨obj, _, hpok, _⟩ := build_ok_decomp env store b message a out hok
    exact hpre obj hpok
  · intro hstream
    have hn : normalize_recipient a (env.get_display_recipient_by_id
        a.recipient_id a.recipient_type a.recipient_type_id) =
        .ok ("stream", env.get_display_recipient_by_id a.recipient_id
          a.recipient_type a.recipient_type_id) := by
      unfold normalize_recipient
      rw [if_pos hstream]
    have hp : build_pre env a = .error .jsonTypeError := by
      unfold build_pre
      rw [hn, ht, heh]
    unfold build_message_dict
    rw [hp]

/-- C1 amended: for a PERSONAL or HUDDLE recipient resolving to exactly one
participant descriptor, the returned display_recipient carries the
singleton-participant insertion: the sender's descriptor is added in
ascending email order, a two-element sequence, exactly when the two emails
differ; an equal email (the self-message case) leaves the singleton of
length 1 unchanged. -/
theorem singleton_recipient_normalization (env : Env) (store : Store)
    (b : Bool) (message : Option MessageRec) (a : BuildArgs)
    (d0 : UserDescriptor) (out : BuildOut)
    (htype : a.recipient_type = Recipient.PERSONAL ∨
             a.recipient_type = Recipient.HUDDLE)
    (hres : env.get_display_recipient_by_id a.recipient_id a.recipient_type
      a.recipient_type_id = .users [d0])
    (h : build_message_dict env store b message a = .ok out) :
    dictGet out.dict "display_recipient" =
      some (DisplayRecipient.toJVal (.users (insert_sender a d0))) := by
  obtain ⟨obj, cv, hpre, hdict⟩ := build_ok_decomp env store b message a out h
  obtain ⟨dt, dr, hn, hcase⟩ := build_pre_cases env a obj hpre
  have hn2 : normalize_recipient a (env.get_display_recipient_by_id
      a.recipient_id a.recipient_type a.recipient_type_id) =
      .ok ("private", .users (insert_sender a d0)) := by
    unfold normalize_recipient
    rw [hres, if_neg ?_, if_pos ?_]
    · rcases htype with ht | ht
      · exact Or.inr ht
      · exact Or.inl ht
    · intro hs
      rcases htype with ht | ht
      · rw [ht] at hs
        exact absurd hs (by decide)
      · rw [ht] at hs
        exact absurd hs (by decide)
  rw [hn] at hn2
  simp only [Except.ok.injEq, Prod.mk.injEq] at hn2
  rcases hcase with ⟨_, hobj⟩ | ⟨t, eh, v, _, _, _, hobj⟩
  · rw [hdict, hobj, hn2.2]
    exact dictGet_append_some _ _ _ _ rfl
  · rw [hdict, hobj, hn2.2, List.append_assoc]
    exact dictGet_append_some _ _ _ _ rfl

theorem toRow_toArgs (m : MessageRec) : m.toRow.toArgs = m.toArgs := rfl

/-- C8 amended: the two adapters pass build_message_dict identical field
values, so to_dict_uncached_helper and build_dict_from_raw_db_row return
equal dicts for both values of apply_markdown whenever the stale-render
re-fetch can find the record — in particular always when apply_markdown is
false or the render gate reports the content fresh.  (When a stale render
forces a re-fetch and the store lacks the id, the row path alone fails with
RecordNotFound.) -/
theorem adapters_agree (env : Env) (store : Store) (m : MessageRec) (b : Bool)
    (hfetch : b = true →
      need_to_render_content m.rendered_content m.rendered_content_version
        env.bugdown_version = true →
      ¬(fetch_message_by_id store m.id = none)) :
    (to_dict_uncached_helper env store m b).map BuildOut.dict =
      (build_dict_from_raw_db_row env store m.toRow b).map BuildOut.dict := by
  unfold to_dict_uncached_helper build_dict_from_raw_db_row
  rw [toRow_toArgs]
  unfold build_message_dict
  cases hpre : build_pre env m.toArgs with
  | error e => rfl
  | ok obj =>
    cases b with
    | false => rfl
    | true =>
      by_cases hgate : need_to_render_content m.toArgs.rendered_content
          m.toArgs.rendered_content_version env.bugdown_version = true
      · simp only [if_pos rfl, hgate, if_true]
        have hne : ¬(fetch_message_by_id store m.id = none) := hfetch rfl hgate
        cases hf : fetch_message_by_id store m.toArgs.message_id with
        | none => exact absurd hf hne
        | some m2 =>
          simp [get_message_for_render, hf, Except.map]
      · simp only [if_pos rfl, hgate]
        simp

/-- A concrete participant descriptor, the resolver's sole participant in
the witness environment. -/
def descA : UserDescriptor :=
  { email := "a@x.com", domain := "x.com", full_name := "Alice A",
    short_name := "alice", id := 7, is_mirror_dummy := false }

/-- The sender's descriptor for the witness sender (email b@x.com). -/
def recipB : UserDescriptor :=
  { email := "b@x.com", domain := "x.com", full_name := "Bob B",
    short_name := "bob", id := 9, is_mirror_dummy := false }

/-- A concrete collaborator environment for witnesses. -/
def envW : Env :=
  { get_avatar_url := fun src email => String.append src (String.append ":" email),
    gravatar_hash := fun email => String.append "gh:" email,
    subject_links := fun _ _ => [],
    get_display_recipient_by_id := fun _ t _ =>
      if t = Recipient.STREAM then .streamName "general" else .users [descA],
    render_markdown := fun content _ =>
      some (String.append "<p>" (String.append content "</p>")),
    bugdown_version := 2,
    save_ok := true,
    zlib := zlibId }

/-- The witness sender record. -/
def senderB : SenderRec :=
  { id := 9, email := "b@x.com", full_name := "Bob B", short_name := "bob",
    avatar_source := "G", is_mirror_dummy := false, realm := { domain := "x.com" } }

/-- A concrete personal message with fresh rendered content. -/
def msgW : MessageRec :=
  { id := 1, content := "hello", subject := "hi", pub_date := 1000,
    last_edit_time := none, edit_history := none,
    rendered_content := some "<p>hello</p>", rendered_content_version := some 2,
    sender := senderB, sending_client := { name := "website" },
    recipient := { id := 4, type := Recipient.PERSONAL, type_id := 9 } }

/-- The witness message with a stale (never rendered) body. -/
def msgStale : MessageRec :=
  { msgW with rendered_content := none, rendered_content_version := none }

/-- The witness message with edit metadata. -/
def msgEdited : MessageRec :=
  { msgW with last_edit_time := some 1200, edit_history := some "[\"x\"]" }

/-- The build output for msgW with markdown off. -/
def outW4 : BuildOut :=
  ⟨base_obj envW msgW.toArgs "private" (.users [descA, recipB]) ++
    [("content", .str "hello"), ("content_type", .str "text/x-markdown")], [], []⟩

/-- Witness for C4: the markdown-off passthrough at a concrete build. -/
theorem markdown_off_passthrough_witness :
    build_message_dict envW [] false none msgW.toArgs = .ok outW4 ∧
    (dictGet outW4.dict "content" = some (.str "hello") ∧
     dictGet outW4.dict "content_type" = some (.str "text/x-markdown") ∧
     outW4.store = [] ∧ outW4.trace = []) :=
  ⟨rfl, markdown_off_passthrough envW [] none msgW.toArgs outW4 rfl⟩

/-- The self-message input: the sender's email equals the sole resolved
participant's email a@x.com. -/
def argsSelf : BuildArgs := { msgW.toArgs with sender_email := "a@x.com" }

/-- The build output for the self-message counterexample input. -/
def outSelf : BuildOut :=
  ⟨base_obj envW argsSelf "private" (.users [descA]) ++
    [("content", .str "hello"), ("content_type", .str "text/x-markdown")], [], []⟩

/-- Counterexample for C1: the self-message build succeeds and its
display_recipient is the one-element sequence holding only the sole
participant; the sender was not inserted and the length is 1. -/
theorem self_message_counterexample :
    build_message_dict envW [] false none argsSelf = .ok outSelf ∧
    dictGet outSelf.dict "display_recipient" = some (.arr [descA.toJVal]) :=
  ⟨rfl, rfl⟩

/-- Witness for the amended C1 at the spec's example: sole participant
a@x.com, sender b@x.com; the result is the two-element sequence in
ascending email order. -/
theorem singleton_recipient_normalization_witness :
    dictGet outW4.dict "display_recipient" =
      some (.arr [descA.toJVal, recipB.toJVal]) := by
  have h := singleton_recipient_normalization envW [] false none msgW.toArgs
    descA outW4 (Or.inl rfl) rfl rfl
  exact h

/-- The witness environment whose persistence fails. -/
def envSaveFail : Env := { envW with save_ok := false }

/-- Witness for C2: a stale render with failing persistence still returns
the freshly rendered body, with the store unchanged. -/
theorem save_failure_tolerated_witness :
    build_message_dict envSaveFail [] true (some msgStale) msgStale.toArgs =
      .ok ⟨base_obj envSaveFail msgStale.toArgs "private" (.users [descA, recipB]) ++
        [("content", .str "<p>hello</p>"), ("content_type", .str "text/html")],
        [], [Eff.render, Eff.persist]⟩ ∧
    dictGet (base_obj envSaveFail msgStale.toArgs "private" (.users [descA, recipB]) ++
        [("content", .str "<p>hello</p>"), ("content_type", .str "text/html")])
      "content" = some (.str "<p>hello</p>") :=
  save_failure_tolerated envSaveFail [] (some msgStale) msgStale [] msgStale.toArgs
    (base_obj envSaveFail msgStale.toArgs "private" (.users [descA, recipB]))
    "<p>hello</p>" rfl rfl rfl rfl rfl

/-- The witness environment whose renderer returns the unparseable sentinel. -/
def envNoRender : Env := { envW with render_markdown := fun _ _ => none }

/-- Witness for C5: the unparseable sentinel produces the fallback notice. -/
theorem unparseable_fallback_witness :
    build_message_dict envNoRender [] true (some msgStale) msgStale.toArgs =
      .ok ⟨base_obj envNoRender msgStale.toArgs "private" (.users [descA, recipB]) ++
        [("content", .str unparseable_notice), ("content_type", .str "text/html")],
        [], [Eff.render, Eff.persist]⟩ ∧
    dictGet (base_obj envNoRender msgStale.toArgs "private" (.users [descA, recipB]) ++
        [("content", .str unparseable_notice), ("content_type", .str "text/html")])
      "content" = some (.str unparseable_notice) ∧
    dictGet (base_obj envNoRender msgStale.toArgs "private" (.users [descA, recipB]) ++
        [("content", .str unparseable_notice), ("content_type", .str "text/html")])
      "content_type" = some (.str "text/html") :=
  unparseable_fallback envNoRender [] (some msgStale) msgStale [] msgStale.toArgs
    (base_obj envNoRender msgStale.toArgs "private" (.users [descA, recipB]))
    rfl rfl rfl rfl

/-- The build output for the edited witness message with markdown off. -/
def outEdited : BuildOut :=
  ⟨base_obj envW msgEdited.toArgs "private" (.users [descA, recipB]) ++
    [("last_edit_timestamp", .num 1200), ("edit_history", .arr [.str "x"])] ++
    [("content", .str "hello"), ("content_type", .str "text/x-markdown")], [], []⟩

/-- Witness for C6: with last_edit_time set the output carries the integer
epoch timestamp and the parsed edit history. -/
theorem edit_metadata_iff_witness :
    dictGet outEdited.dict "last_edit_timestamp" = some (.num 1200) ∧
    dictGet outEdited.dict "edit_history" = some (.arr [.str "x"]) := by
  obtain ⟨eh, v, heh, hv, h1, h2⟩ :=
    (edit_metadata_iff envW [] false none msgEdited.toArgs outEdited rfl).2 1200 rfl
  have heh2 : eh = "[\"x\"]" := by
    have : msgEdited.toArgs.edit_history = some "[\"x\"]" := rfl
    rw [this] at heh
    injection heh with h3
    exact h3.symm
  subst heh2
  have hv2 : ujson_loads "[\"x\"]" = some (.arr [.str "x"]) := rfl
  rw [hv2] at hv
  injection hv with h4
  subst h4
  exact ⟨h1, h2⟩

/-- The encoded output for msgW with markdown on and a fresh render gate. -/
def outW7 : UncachedOut :=
  ⟨stringify_message_dict zlibId
    (base_obj envW msgW.toArgs "private" (.users [descA, recipB]) ++
      [("content", .str "<p>hello</p>"), ("content_type", .str "text/html")]),
   [], []⟩

/-- Witness for C7: a fresh gate leaves the store unchanged, and the second
run returns the identical encoded bytes. -/
theorem to_dict_uncached_deterministic_witness :
    to_dict_uncached envW [] msgW true = .ok outW7 ∧
    (outW7.store = [] ∧ outW7.trace = [] ∧
     to_dict_uncached envW outW7.store msgW true = .ok outW7) :=
  ⟨rfl, to_dict_uncached_deterministic envW [] msgW true outW7 rfl rfl⟩

/-- Witness for the amended C8: with markdown off the two adapters return
the same dict at a concrete record and its row projection. -/
theorem adapters_agree_witness :
    (to_dict_uncached_helper envW [] msgW false).map BuildOut.dict =
      (build_dict_from_raw_db_row envW [] msgW.toRow false).map BuildOut.dict :=
  adapters_agree envW [] msgW false (fun hb => absurd hb (by decide))

/-- The record-path output for the C8 counterexample: the build renders with
the supplied object and succeeds. -/
def outStale : BuildOut :=
  ⟨base_obj envW msgStale.toArgs "private" (.users [descA, recipB]) ++
    [("content", .str "<p>hello</p>"), ("content_type", .str "text/html")],
   [], [Eff.render, Eff.persist]⟩

/-- Counterexample for C8 as stated: with apply_markdown true, a stale
render gate and an empty record store, the record adapter returns a dict
while the row adapter's re-fetch fails with RecordNotFound, so the two
adapters do not return equal dicts for both values of apply_markdown. -/
theorem adapters_disagree_counterexample :
    to_dict_uncached_helper envW [] msgStale true = .ok outStale ∧
    build_dict_from_raw_db_row envW [] msgStale.toRow true =
      .error (.recordNotFound 1) :=
  ⟨rfl, rfl⟩

/-- A witness input whose recipient type is none of the three constants. -/
def argsBadType : BuildArgs := { msgW.toArgs with recipient_type := 7 }

/-- The witness environment whose resolver returns a bare stream name for
every recipient. -/
def envStr : Env :=
  { envW with get_display_recipient_by_id := fun _ _ _ => .streamName "general" }

/-- Witness for C9: recipient type 7 hits the unbound display_type failure,
and a bare-string display recipient for a PERSONAL message fails the
assertion. -/
theorem invalid_recipient_fatal_witness :
    build_message_dict envW [] true none argsBadType =
      .error .unboundDisplayType ∧
    build_message_dict envStr [] true none msgW.toArgs =
      .error .assertionError :=
  ⟨(invalid_recipient_fatal envW [] true none argsBadType).1
      (by decide) (by decide) (by decide),
   (invalid_recipient_fatal envStr [] true none msgW.toArgs).2
      "general" (Or.inl rfl) rfl⟩

/-- A witness input with last_edit_time set, edit_history null and a stream
recipient. -/
def argsC10 : BuildArgs :=
  { msgW.toArgs with last_edit_time := some 1200, edit_history := none,
                     recipient_type := Recipient.STREAM }

/-- Witness for C10: the build fails with the ujson TypeError. -/
theorem null_edit_history_raises_witness :
    build_message_dict envW [] false none argsC10 = .error .jsonTypeError :=
  (null_edit_history_raises envW [] false none argsC10 1200 rfl rfl).2 rfl
